import Mathlib

/-!
Verification of the media-ingestion and catalog-persistence core of
`server.js` (a small Express storefront backend).  The JavaScript source is
shallowly embedded: pure string manipulations become functions on `List Char`
and `String`, the catalog read-modify-write cycle becomes explicit state
passing over the raw document content, and the asset directory becomes an
explicit tree.  External runtime services (the `sharp` image library and the
JSON codec of the JavaScript runtime) are not repository code; where a claim
depends on them they are modelled from the specification and marked as such.
-/

/-! ## Character and string primitives

The JavaScript code manipulates filenames with `path.basename`,
`path.extname`, `String.prototype.replace`, `trim`, `includes`,
`startsWith` and `toLowerCase`.  These are modelled over `List Char`
(ASCII-faithful; the source only ever deals with ASCII metacharacters). -/

/-- Whitespace class of the JavaScript regex `\s` and of `String.prototype.trim`,
restricted to its ASCII members. -/
def wsChar (c : Char) : Bool :=
  c = ' ' || c = '\t' || c = '\n' || c = '\r' || c = '\x0b' || c = '\x0c'

/-- Remove leading and trailing whitespace (JavaScript `trim`). -/
def trimChars (l : List Char) : List Char :=
  ((l.dropWhile wsChar).reverse.dropWhile wsChar).reverse

/-- JavaScript `String.prototype.trim` on `String`. -/
def jsTrim (s : String) : String := String.mk (trimChars s.toList)

/-- Substring test: `pat` occurs contiguously inside `l`
(JavaScript `String.prototype.includes`). -/
def containsSub (pat l : List Char) : Bool :=
  l.tails.any (fun t => pat.isPrefixOf t)

/-- JavaScript `includes` on `String`. -/
def containsSubStr (pat s : String) : Bool := containsSub pat.toList s.toList

/-- Strip trailing path separators, as Node's `path.posix.basename` does
before extracting the last segment. -/
def stripTrailingSlashes (l : List Char) : List Char :=
  (l.reverse.dropWhile (· = '/')).reverse

/-- Node `path.basename`: the last path segment, trailing separators ignored. -/
def bnChars (l : List Char) : List Char :=
  ((stripTrailingSlashes l).reverse.takeWhile (· ≠ '/')).reverse

/-- Node `path.basename` on `String`. -/
def bn (s : String) : String := String.mk (bnChars s.toList)

/-- Node `path.extname` applied to a basename `b`: the suffix from the last
dot, empty when there is no dot, when the only dot leads the name
(dotfiles such as `.bashrc`), or when the name is the special segment
two-dots. -/
def extChars (b : List Char) : List Char :=
  if b = ['.', '.'] then []
  else
    match b.reverse.findIdx? (· = '.') with
    | none => []
    | some k =>
      let pos := b.length - 1 - k
      if pos = 0 then [] else b.drop pos

/-- Node `path.extname` on `String` (takes the basename first, as Node does). -/
def extname (s : String) : String := String.mk (extChars (bnChars s.toList))

/-- Node `path.basename(p, ext)`: the basename with the suffix `ext`
stripped when it is a proper suffix (Node keeps the name whole when it
equals the suffix). -/
def bnExtChars (p ext : List Char) : List Char :=
  let b := bnChars p
  if ext ≠ [] && b ≠ ext && ext.isSuffixOf b then b.take (b.length - ext.length) else b

/-- Collapse every maximal run of whitespace to a single hyphen: the
JavaScript `.replace(/\s+/g, "-")`.  The accumulator flag records whether
the previous character belonged to a whitespace run. -/
def collapseWsAux : Bool → List Char → List Char
  | _, [] => []
  | inRun, c :: rest =>
    if wsChar c then
      if inRun then collapseWsAux true rest
      else '-' :: collapseWsAux true rest
    else c :: collapseWsAux false rest

/-- Entry point of the whitespace-collapsing replacement. -/
def collapseWs (l : List Char) : List Char := collapseWsAux false l

/-- Character class kept by `.replace(/[^a-zA-Z0-9-_]/g, "")`. -/
def keepAllowedChar (c : Char) : Bool :=
  c.isAlpha || c.isDigit || c = '-' || c = '_'

/-! ## Upload filename derivation (`/upload` and `/products/add`)

Source:
`path.basename(file.originalname, path.extname(file.originalname))
   .replace(/\s+/g, "-").replace(/[^a-zA-Z0-9-_]/g, "")`
followed by appending `-<id>.jpg`. -/

/-- Sanitised stem of an uploaded file's original name, exactly as the
upload handlers compute it. -/
def sanitizeStem (orig : String) : String :=
  String.mk
    ((collapseWs (bnExtChars orig.toList (extChars (bnChars orig.toList)))).filter
      keepAllowedChar)

/-- Final stored name of an upload: sanitised stem, hyphen, unique id,
`.jpg` extension (`` `${base}-${id}.jpg` `` in the source). -/
def finalName (orig uid : String) : String :=
  sanitizeStem orig ++ "-" ++ uid ++ ".jpg"

example : sanitizeStem "My Cake!!.HEIC" = "My-Cake" := by decide
example : finalName "My Cake!!.HEIC" "deadbeef" = "My-Cake-deadbeef.jpg" := by decide

/-! ## Admin Gate (`requireAdmin`)

Source (v2):
```
const cookie = (req.headers.cookie || "");
if (cookie.includes("admin=4321")) return next();
if (req.headers['x-admin-pin'] === '4321') return next();
return res.status(403)...
```
The decision is a substring test on the raw cookie header plus an exact
equality test on the `x-admin-pin` header. -/

/-- The shared admin secret as it appears when assigned to the cookie. -/
def adminCookiePair : String := "admin=4321"

/-- The shared admin PIN value. -/
def adminPin : String := "4321"

/-- The admin gate: `true` means the request proceeds (allow). `cookie` is
the raw `Cookie` header (absent header modelled as the empty string, as the
source's `|| ""` does); `pin` is the optional `x-admin-pin` header. -/
def requireAdmin (cookie : String) (pin : Option String) : Bool :=
  containsSubStr adminCookiePair cookie || pin == some adminPin

/-- Split a character list on a separator character (used only by the
reference cookie parser below). -/
def splitOnChar (c : Char) (l : List Char) : List (List Char) :=
  l.foldr
    (fun x r =>
      match r with
      | [] => [[]]
      | h :: t => if x = c then [] :: h :: t else (x :: h) :: t)
    [[]]

/-- Reference cookie-header parser (standard `name=value; ...` syntax),
used to speak about the credential value actually presented for a given
cookie name.  Not part of the source: the source never parses the header. -/
def cookieValue (h : String) (nameq : String) : Option String :=
  ((splitOnChar ';' h.toList).map trimChars).findSome? (fun seg =>
    let nm := seg.takeWhile (· ≠ '=')
    if nm = nameq.toList && nm.length < seg.length then
      some (String.mk (seg.drop (nm.length + 1)))
    else none)

/-! ## Filename Sanitizer and image-delete operations

Source:
```
function safeFilename(name) {
  if (!name) return null;
  name = path.basename(name);
  if (name.includes("..") || name.includes("/") || name.includes("\\")) return null;
  return name;
}
```
Both delete routes then run, per name:
```
const safe = safeFilename(raw);
if (!safe) { ...error, no filesystem call... }
const full = path.join(IMAGES_DIR, safe);
await fsp.unlink(full);
```
The filesystem is modelled as the list of existing *file* paths, each a
list of path segments; directories are implicit.  `unlink` removes its
target when the target is a file, and fails (leaving the state unchanged)
otherwise — in particular `unlink` on a directory always fails. -/

/-- A filesystem path as a list of segments. -/
abbrev FsPath := List String

/-- `safeFilename` from the source: `null` is `none`; note the basename is
taken *before* the marker checks. -/
def safeFilename (nameq : String) : Option String :=
  if nameq = "" then none
  else
    let b := bn nameq
    if containsSubStr ".." b || containsSubStr "/" b || containsSubStr "\\" b then none
    else some b

/-- The route-level guard `if (!safe)`: rejects both `null` and the empty
string (both are falsy in JavaScript). -/
def routeSafeName (raw : String) : Option String :=
  match safeFilename raw with
  | none => none
  | some s => if s = "" then none else some s

/-- `path.join(root, s)` for a segment `s` free of separators and of `..`:
the only normalisation left is that the current-directory segment
disappears. -/
def joinSeg (root : FsPath) (s : String) : FsPath :=
  if s = "." then root else root ++ [s]

/-- Result of one image-delete request: the filesystem after the call and
the path handed to `unlink`, when an `unlink` call was made at all. -/
structure DeleteOutcome where
  fs : List FsPath
  unlink : Option FsPath
deriving Repr, DecidableEq

/-- One name processed by the delete routes (`POST /images/delete` handles a
batch of these; `DELETE /images/delete/:filename` exactly one): guard with
`safeFilename`, then `unlink(path.join(IMAGES_DIR, safe))`.  `root` is the
segment list of `IMAGES_DIR`. -/
def imagesDeleteOne (root : FsPath) (fs : List FsPath) (raw : String) : DeleteOutcome :=
  match routeSafeName raw with
  | none => ⟨fs, none⟩
  | some s =>
    let t := joinSeg root s
    ⟨fs.filter (· ≠ t), some t⟩

/-- The batch form of `POST /images/delete`: the names are processed in
order, each through `imagesDeleteOne`. -/
def imagesDeleteBatch (root : FsPath) (fs : List FsPath) (raws : List String) : List FsPath :=
  raws.foldl (fun acc raw => (imagesDeleteOne root acc raw).fs) fs

example : safeFilename "sub/evil.jpg" = some "evil.jpg" := by decide
example : safeFilename "a..b.jpg" = none := by decide
example : safeFilename "../x" = some "x" := by decide
example :
    imagesDeleteOne ["public", "images"] [["public", "images", "evil.jpg"]] "sub/evil.jpg" =
      ⟨[], some ["public", "images", "evil.jpg"]⟩ := by decide

/-! ## Catalog Store (`/products/list`, `/products/add`, `/products/delete`)

A product record is the JavaScript object built by the `products/add`
literal: an ordered list of field-name/value pairs.  Field values in this
program are strings (a number alternative is provided so that numeric
field claims are statable).  Property access on a missing key yields
JavaScript `undefined`, modelled as `none`.

The persisted document is raw text (`Option String`; `none` is a missing
or unreadable file).  `JSON.parse` and `JSON.stringify` belong to the
JavaScript runtime, not to this repository, so the operations are
parametrised by a `parse : String → Option (List Rec)` (`none` models a
`JSON.parse` throw, caught by `readProducts`) and a
`stringify : List Rec → String`. -/

/-- A JSON field value as used by the catalog records. -/
inductive JVal where
  | str (s : String)
  | num (q : ℚ)
deriving Repr, DecidableEq

/-- A product record: the ordered fields of a JavaScript object. -/
abbrev Rec := List (String × JVal)

/-- Property access `r.k` on a record: first binding wins, a missing key
is `undefined` (`none`). -/
def rLookup (r : Rec) (k : String) : Option JVal :=
  (r.find? (fun p => p.1 == k)).map (·.2)

/-- The field names of a record, in construction order. -/
def rKeys (r : Rec) : List String := r.map (·.1)

/-- The object literal of `products/add`:
`{ id: uuidv4(), name: name.trim(), description: (description||"").trim(),
   price: price || "", image: imageUrl, createdAt: new Date().toISOString() }`.
The arguments are the already-evaluated field values. -/
def mkRec (idv nm ds pr img ts : String) : Rec :=
  [("id", .str idv), ("name", .str nm), ("description", .str ds),
   ("price", .str pr), ("image", .str img), ("createdAt", .str ts)]

/-- `readProducts`: parse the document, returning the empty collection on a
missing/unreadable file or on a parse failure (the source's `catch`). -/
def readProducts (parse : String → Option (List Rec)) (doc : Option String) : List Rec :=
  match doc with
  | none => []
  | some s => (parse s).getD []

/-- Insertion into a list sorted by the boolean comparison `le`. -/
def insertBy (le : α → α → Bool) (a : α) : List α → List α
  | [] => [a]
  | b :: bs => if le a b then a :: b :: bs else b :: insertBy le a bs

/-- Insertion sort by the boolean comparison `le` (models
`Array.prototype.sort` with a consistent comparator). -/
def sortBy (le : α → α → Bool) : List α → List α
  | [] => []
  | a :: as => insertBy le a (sortBy le as)

/-- The `createdAt` field of a record as a string (empty for a missing or
non-string field).  ISO-8601 timestamps compare lexicographically in the
same order as the dates the source compares them as. -/
def createdOf (r : Rec) : String :=
  match rLookup r "createdAt" with
  | some (.str s) => s
  | _ => ""

/-- Newest-first comparison used by the list routes
(`(a, b) => new Date(b.createdAt) - new Date(a.createdAt)`). -/
def newerFirst (a b : Rec) : Bool :=
  !decide ((createdOf a).data < (createdOf b).data)

/-- `GET /products/list`: read, sort newest first, return. -/
def listProducts (parse : String → Option (List Rec)) (doc : Option String) : List Rec :=
  sortBy newerFirst (readProducts parse doc)

/-- The placeholder product image path (`default-sample.png` under the
product-image subdirectory), assigned when no image file is uploaded. -/
def placeholderImage : String := "/images/products/default-sample.png"

/-- The URL prefix of product images, also the prefix tested by
`products/delete` before unlinking. -/
def productsUrlDir : String := "/images/products/"

/-- Segment path of `PRODUCTS_IMG_DIR` relative to the application root. -/
def PRODUCTS_IMG_DIR : FsPath := ["public", "images", "products"]

/-- JavaScript `String.prototype.startsWith`, character-exact. -/
def jsStartsWith (pfx s : String) : Bool := pfx.toList.isPrefixOf s.toList

/-- `s.replace(pfx, "")` in the only situation the source uses it (after a
successful `startsWith` test): drop the first occurrence of the prefix. -/
def stripPfxOnce (pfx s : String) : String :=
  if jsStartsWith pfx s then String.mk (s.toList.drop pfx.toList.length) else s

/-- Outcome of `POST /products/add`: the response (`error` carries the
message of the 400 reply) and the document content after the call.  A
rejected call performs no write, so `newDoc` is then the unchanged input. -/
structure AddOutcome where
  out : Except String Rec
  newDoc : Option String
deriving Repr

/-- `POST /products/add`.  `nameIn`/`descIn`/`priceIn` are the form fields
(`none` = absent), `fileIn` the original name of the optional image upload,
`imgId` and `idv` the two `uuidv4()` draws, `ts` the clock reading. -/
def productsAdd (parse : String → Option (List Rec)) (stringify : List Rec → String)
    (nameIn descIn priceIn : Option String) (fileIn : Option String)
    (imgId idv ts : String) (doc : Option String) : AddOutcome :=
  let nameOk := match nameIn with
    | none => false
    | some s => jsTrim s ≠ ""
  if !nameOk then ⟨.error "Name required", doc⟩
  else
    let imageUrl := match fileIn with
      | none => placeholderImage
      | some orig => productsUrlDir ++ finalName orig imgId
    let list := readProducts parse doc
    let newProd := mkRec idv (jsTrim ((nameIn.getD ""))) (jsTrim (descIn.getD ""))
      (priceIn.getD "") imageUrl ts
    ⟨.ok newProd, some (stringify (list ++ [newProd]))⟩

/-- Outcome of `POST /products/delete`: the response, the document after
the call, and the full path handed to the best-effort `unlink`, when that
call was made. -/
structure DelProdOutcome where
  out : Except String Unit
  newDoc : Option String
  unlink : Option FsPath
deriving Repr

/-- `POST /products/delete`: locate by `id`, splice out one record, persist,
then attempt `unlink(path.join(PRODUCTS_IMG_DIR, image.replace("/images/products/", "")))`
whenever the removed record's `image` is a truthy string with the
product-image prefix. -/
def productsDelete (parse : String → Option (List Rec)) (stringify : List Rec → String)
    (idv : String) (doc : Option String) : DelProdOutcome :=
  let products := readProducts parse doc
  match products.findIdx? (fun p => rLookup p "id" == some (.str idv)) with
  | none => ⟨.error "product not found", doc, none⟩
  | some i =>
    let removed := (products.get? i).getD []
    let rest := products.eraseIdx i
    let target := match rLookup removed "image" with
      | some (.str s) =>
        if s ≠ "" && jsStartsWith productsUrlDir s then
          some (PRODUCTS_IMG_DIR ++ [stripPfxOnce productsUrlDir s])
        else none
      | _ => none
    ⟨.ok (), some (stringify rest), target⟩

/-! ## Gallery Index: recursive walk and disk usage

Source: `walkImages` recursively reads the directory tree, keeps files
whose lowercased name matches `/\.(jpg|jpeg|png|gif|webp|svg|heic|heif)$/i`,
and records relative path, size and mtime; `/admin/disk-info` sums the
sizes, compares with the constant capacity `DISK_SIZE_GB` and rounds the
percentage. -/

mutual
/-- A directory tree: files carry name, byte size and modification time;
directories carry their ordered children. -/
inductive FsEntry where
  | file (nameq : String) (size : Nat) (mtime : Nat)
  | dir (nameq : String) (children : FsForest)
deriving Repr
/-- The ordered children of a directory. -/
inductive FsForest where
  | nil
  | cons (e : FsEntry) (rest : FsForest)
deriving Repr
end

/-- The recognised image extensions, lowercased, including the dot the
regex requires. -/
def allowedExts : List String :=
  [".jpg", ".jpeg", ".png", ".gif", ".webp", ".svg", ".heic", ".heif"]

/-- The test `ALLOWED.test(name.toLowerCase())`: the lowercased name ends
in a dot plus a recognised extension. -/
def allowedExt (nameq : String) : Bool :=
  allowedExts.any (fun e => e.toList.isSuffixOf (nameq.toList.map Char.toLower))

/-- One collected result of `walkImages`: relative path, size, mtime. -/
structure ImgInfo where
  file : String
  size : Nat
  mtime : Nat
deriving Repr, DecidableEq

/-- `path.join` of a relative directory path and a child name, with the
empty relative path (the walk root) joining to the bare name. -/
def joinRel (d nameq : String) : String :=
  if d = "" then nameq else d ++ "/" ++ nameq

mutual
/-- The recursive walk of `walkImages` at one entry: results appear in
directory order, a subdirectory's results in place of the subdirectory. -/
def walkEntry (d : String) : FsEntry → List ImgInfo
  | .file n s m => if allowedExt n then [⟨joinRel d n, s, m⟩] else []
  | .dir n cs => walkForest (joinRel d n) cs
/-- The recursive walk of `walkImages` over a directory's children. -/
def walkForest (d : String) : FsForest → List ImgInfo
  | .nil => []
  | .cons e rest => walkEntry d e ++ walkForest d rest
end

/-- `walkImages(IMAGES_DIR)`: relative paths start at the image root. -/
def walkImages (t : FsForest) : List ImgInfo := walkForest "" t

/-- The configured capacity constant `DISK_SIZE_GB`. -/
def DISK_SIZE_GB : Nat := 5

/-- `Math.round` on a non-negative quantity: half-up rounding. -/
def jsRound (q : ℚ) : ℤ := ⌊q + 1 / 2⌋

/-- The reply of `GET /admin/disk-info` (the fields the claim speaks of). -/
structure DiskInfo where
  totalBytes : Nat
  usedBytes : Nat
  usedPct : ℤ
  fileCount : Nat
deriving Repr

/-- `GET /admin/disk-info`: walk the image root, sum the sizes
(`files.reduce((s, f) => s + (f.size || 0), 0)`), fix the capacity at
`DISK_SIZE_GB` gibibytes, round the percentage. -/
def diskInfo (t : FsForest) : DiskInfo :=
  let files := walkImages t
  let used := files.foldl (fun s f => s + f.size) 0
  let total := DISK_SIZE_GB * 1024 * 1024 * 1024
  { totalBytes := total
    usedBytes := used
    usedPct := if total > 0 then jsRound ((used : ℚ) / (total : ℚ) * 100) else 0
    fileCount := files.length }

mutual
/-- Specification-side recursive sum: the sizes of every
recognised-extension file under one entry, summed directly. -/
def sumSizesEntry : FsEntry → Nat
  | .file n s _ => if allowedExt n then s else 0
  | .dir _ cs => sumSizesForest cs
/-- Specification-side recursive size sum over a forest. -/
def sumSizesForest : FsForest → Nat
  | .nil => 0
  | .cons e rest => sumSizesEntry e + sumSizesForest rest
end

mutual
/-- Specification-side recursive count of recognised-extension files
under one entry. -/
def countEntry : FsEntry → Nat
  | .file n _ _ => if allowedExt n then 1 else 0
  | .dir _ cs => countForest cs
/-- Specification-side recursive file count over a forest. -/
def countForest : FsForest → Nat
  | .nil => 0
  | .cons e rest => countEntry e + countForest rest
end

/-! ## Upload Pipeline transcoding

Source (per file): `sharp(buffer).jpeg({ quality: 85 })
.resize({ width: 1600, withoutEnlargement: true }).toFile(finalPath)`.
The `sharp` library is external to this repository. -/

/-- A decoded source image: positive pixel dimensions, any source format. -/
structure RawImage where
  width : Nat
  height : Nat
  format : String
deriving Repr

/-- A stored output image.  Dimensions are kept as exact rationals so that
aspect-ratio preservation is statable without fixing a rounding rule the
specification does not give. -/
structure OutImage where
  width : ℚ
  height : ℚ
  format : String
  quality : Nat
deriving Repr

/-- Modelled from the spec: the `sharp` JPEG/resize pipeline (an external
library, not repository code): decode the source regardless of encoding,
transcode to JPEG at the given quality, scale so the width does not exceed
`maxWidth`, never enlarging when `withoutEnlargement`, preserving the
aspect ratio. -/
def sharpPipeline (quality maxWidth : Nat) (withoutEnlargement : Bool)
    (img : RawImage) : OutImage :=
  let outW : ℚ := if withoutEnlargement then min (maxWidth : ℚ) (img.width : ℚ) else maxWidth
  { width := outW
    height := if img.width = 0 then 0 else (img.height : ℚ) * outW / (img.width : ℚ)
    format := "jpeg"
    quality := quality }

/-- The transcode call of the upload handlers, with the source's literal
parameters. -/
def uploadTranscode (img : RawImage) : OutImage := sharpPipeline 85 1600 true img

/-! ## Theorems -/

/-- C4 (counterexample): uploading `My Cake!!.HEIC` does not yield a name of
the shape `my-cake-<id>.jpg`: the sanitiser never lowercases, so at the
concrete id `deadbeef` the stored name differs from `my-cake-deadbeef.jpg`. -/
theorem c4_lowercase_counterexample :
    finalName "My Cake!!.HEIC" "deadbeef" = "My-Cake-deadbeef.jpg" ∧
    finalName "My Cake!!.HEIC" "deadbeef" ≠ "my-cake-deadbeef.jpg" := by
  decide

/-- C4 (amended): uploading `My Cake!!.HEIC` yields the stored name
`My-Cake-<id>.jpg` — whitespace collapsed to hyphens, characters outside
`[A-Za-z0-9_-]` stripped, the unique suffix appended and a `.jpg`
extension, with the stem's original case preserved. -/
theorem c4_upload_name (uid : String) :
    finalName "My Cake!!.HEIC" uid = "My-Cake-" ++ uid ++ ".jpg" := by
  show sanitizeStem "My Cake!!.HEIC" ++ "-" ++ uid ++ ".jpg" = "My-Cake-" ++ uid ++ ".jpg"
  have h : sanitizeStem "My Cake!!.HEIC" = "My-Cake" := by decide
  rw [h]
  congr 1

/-- C1 (failing input): deleting a product whose `image` is the placeholder
path does trigger a filesystem deletion attempt.  The placeholder itself
starts with `/images/products/`, so the prefix test of `products/delete`
selects it and the route issues `unlink` on the placeholder file — exactly
what the claimed invariant forbids. -/
theorem c1_placeholder_unlink_attempt :
    rLookup (mkRec "p1" "Cake" "" "" placeholderImage "2024-01-01T00:00:00.000Z") "image"
      = some (.str placeholderImage) ∧
    (productsDelete (fun _ => some [mkRec "p1" "Cake" "" "" placeholderImage
        "2024-01-01T00:00:00.000Z"]) (fun _ => "[]") "p1" (some "doc")).out = .ok () ∧
    (productsDelete (fun _ => some [mkRec "p1" "Cake" "" "" placeholderImage
        "2024-01-01T00:00:00.000Z"]) (fun _ => "[]") "p1" (some "doc")).newDoc = some "[]" ∧
    (productsDelete (fun _ => some [mkRec "p1" "Cake" "" "" placeholderImage
        "2024-01-01T00:00:00.000Z"]) (fun _ => "[]") "p1" (some "doc")).unlink
      = some (PRODUCTS_IMG_DIR ++ ["default-sample.png"]) := by
  refine ⟨rfl, rfl, rfl, ?_⟩
  rfl

/-- C5 (counterexample): an Add-product call that omits the optional
category and rating inputs creates a record with *no* `category` and no
`rating` field at all: at a concrete call the created record's `category`
lookup is `undefined` (`none`), not `"Uncategorized"`, and its `rating`
lookup is `none`, not `0`. -/
theorem c5_defaults_counterexample :
    (productsAdd (fun _ => some []) (fun _ => "") (some "Cake") none none none
        "i1" "p1" "t0" (some "[]")).out
      = .ok (mkRec "p1" "Cake" "" "" placeholderImage "t0") ∧
    rLookup (mkRec "p1" "Cake" "" "" placeholderImage "t0") "category" = none ∧
    rLookup (mkRec "p1" "Cake" "" "" placeholderImage "t0") "rating" = none := by
  exact ⟨rfl, rfl, rfl⟩

/-- C5 (amended): every record created by an Add-product call has exactly
the fields `id`, `name`, `description`, `price`, `image`, `createdAt`;
`category` and `rating` are absent (the code neither reads such inputs nor
applies any default). -/
theorem c5_created_record_fields (parse : String → Option (List Rec))
    (stringify : List Rec → String) (nameIn descIn priceIn fileIn : Option String)
    (imgId idv ts : String) (doc : Option String) (r : Rec)
    (h : (productsAdd parse stringify nameIn descIn priceIn fileIn imgId idv ts doc).out
      = .ok r) :
    rKeys r = ["id", "name", "description", "price", "image", "createdAt"] ∧
    rLookup r "category" = none ∧ rLookup r "rating" = none := by
  unfold productsAdd at h
  dsimp only at h
  split at h
  · exact absurd h (by simp)
  · rw [Except.ok.injEq] at h
    subst h
    exact ⟨rfl, rfl, rfl⟩

/-- C5 (witness): the amended field list at a concrete Add-product call. -/
theorem c5_created_record_fields_witness :
    rKeys (mkRec "p1" "Cake" "" "" placeholderImage "t0")
      = ["id", "name", "description", "price", "image", "createdAt"] ∧
    rLookup (mkRec "p1" "Cake" "" "" placeholderImage "t0") "category" = none ∧
    rLookup (mkRec "p1" "Cake" "" "" placeholderImage "t0") "rating" = none :=
  c5_created_record_fields (fun _ => some []) (fun _ => "") (some "Cake") none none none
    "i1" "p1" "t0" (some "[]") (mkRec "p1" "Cake" "" "" placeholderImage "t0") rfl

/-- C6: an Add-product call whose name is absent, empty, or
whitespace-only is rejected with the validation error and performs no
write: the document after the call is byte-identical to the input. -/
theorem c6_empty_name_no_write (parse : String → Option (List Rec))
    (stringify : List Rec → String) (nameIn descIn priceIn fileIn : Option String)
    (imgId idv ts : String) (doc : Option String)
    (h : nameIn = none ∨ ∃ s, nameIn = some s ∧ jsTrim s = "") :
    (productsAdd parse stringify nameIn descIn priceIn fileIn imgId idv ts doc).out
      = .error "Name required" ∧
    (productsAdd parse stringify nameIn descIn priceIn fileIn imgId idv ts doc).newDoc
      = doc := by
  rcases h with h | ⟨s, h, hs⟩
  · subst h; simp [productsAdd]
  · subst h; simp [productsAdd, hs]

/-- C6 (witness): a whitespace-only name at a concrete Add-product call is
rejected and the document is unchanged. -/
theorem c6_empty_name_no_write_witness :
    (productsAdd (fun _ => some []) (fun l => toString l.length) (some "   ") none none
        none "i1" "p1" "t0" (some "[]")).out = .error "Name required" ∧
    (productsAdd (fun _ => some []) (fun l => toString l.length) (some "   ") none none
        none "i1" "p1" "t0" (some "[]")).newDoc = some "[]" :=
  c6_empty_name_no_write (fun _ => some []) (fun l => toString l.length) (some "   ")
    none none none "i1" "p1" "t0" (some "[]") (Or.inr ⟨"   ", rfl, by decide⟩)

/-- C7: every successfully stored upload is a JPEG at quality 85 whose
width is at most 1600 and never exceeds the source width, an image already
narrower than 1600 keeps its width, and the aspect ratio is preserved
exactly (`outH / outW = srcH / srcW`, stated multiplicatively). -/
theorem c7_transcode_bounds (img : RawImage) (h : 0 < img.width) :
    (uploadTranscode img).format = "jpeg" ∧
    (uploadTranscode img).quality = 85 ∧
    (uploadTranscode img).width ≤ 1600 ∧
    (uploadTranscode img).width ≤ (img.width : ℚ) ∧
    (img.width ≤ 1600 → (uploadTranscode img).width = (img.width : ℚ)) ∧
    (uploadTranscode img).height * (img.width : ℚ)
      = (img.height : ℚ) * (uploadTranscode img).width := by
  have hw : (img.width : ℚ) ≠ 0 := by
    exact_mod_cast Nat.pos_iff_ne_zero.mp h
  unfold uploadTranscode sharpPipeline
  refine ⟨rfl, rfl, ?_, ?_, ?_, ?_⟩
  · exact min_le_left (1600 : ℚ) (img.width : ℚ)
  · exact min_le_right (1600 : ℚ) (img.width : ℚ)
  · intro hle
    exact min_eq_right (by exact_mod_cast hle : (img.width : ℚ) ≤ 1600)
  · have hz : img.width ≠ 0 := Nat.pos_iff_ne_zero.mp h
    simp only [hz, if_false]
    rw [div_mul_cancel₀ _ hw]

/-- C7 (witness): the transcode bounds at a concrete 3200 by 2400 HEIC
source, whose stored output is 1600 by 1200. -/
theorem c7_transcode_bounds_witness :
    0 < (RawImage.mk 3200 2400 "heic").width ∧
    ((uploadTranscode (RawImage.mk 3200 2400 "heic")).format = "jpeg" ∧
     (uploadTranscode (RawImage.mk 3200 2400 "heic")).quality = 85 ∧
     (uploadTranscode (RawImage.mk 3200 2400 "heic")).width ≤ 1600 ∧
     (uploadTranscode (RawImage.mk 3200 2400 "heic")).width
       ≤ ((RawImage.mk 3200 2400 "heic").width : ℚ) ∧
     ((RawImage.mk 3200 2400 "heic").width ≤ 1600 →
       (uploadTranscode (RawImage.mk 3200 2400 "heic")).width
         = ((RawImage.mk 3200 2400 "heic").width : ℚ)) ∧
     (uploadTranscode (RawImage.mk 3200 2400 "heic")).height
         * ((RawImage.mk 3200 2400 "heic").width : ℚ)
       = ((RawImage.mk 3200 2400 "heic").height : ℚ)
         * (uploadTranscode (RawImage.mk 3200 2400 "heic")).width) :=
  ⟨by decide, c7_transcode_bounds (RawImage.mk 3200 2400 "heic") (by decide)⟩

/-- C2 (counterexample): the name `sub/evil.jpg` contains a path separator,
yet the image-delete operation does not reject it: `safeFilename` strips
the directory part first, the remaining `evil.jpg` passes the checks, and
an `unlink` filesystem call is made (here at a state where it actually
removes a file). -/
theorem c2_separator_name_unlinked :
    containsSubStr "/" "sub/evil.jpg" = true ∧
    safeFilename "sub/evil.jpg" = some "evil.jpg" ∧
    imagesDeleteOne ["public", "images"] [["public", "images", "evil.jpg"]] "sub/evil.jpg"
      = ⟨[], some ["public", "images", "evil.jpg"]⟩ := by
  exact ⟨rfl, rfl, rfl⟩

/-- The route guard of the image-delete paths fails exactly when the
submitted name is empty, or its basename (after stripping directory
components) is empty or still contains a parent-directory marker or a
path separator. -/
theorem routeSafeName_eq_none_iff (raw : String) :
    routeSafeName raw = none ↔
      (raw = "" ∨ bn raw = "" ∨ containsSubStr ".." (bn raw) = true ∨
        containsSubStr "/" (bn raw) = true ∨ containsSubStr "\\" (bn raw) = true) := by
  unfold routeSafeName safeFilename
  by_cases h0 : raw = ""
  · simp [h0]
  · by_cases h1 : containsSubStr ".." (bn raw) = true
    · simp [h0, h1]
    · by_cases h2 : containsSubStr "/" (bn raw) = true
      · simp [h0, h1, h2]
      · by_cases h3 : containsSubStr "\\" (bn raw) = true
        · simp [h0, h1, h2, h3]
        · by_cases h4 : bn raw = "" <;>
            simp [h0, h1, h2, h3, h4, show containsSubStr ".." "" = false from by decide,
              show containsSubStr "/" "" = false from by decide,
              show containsSubStr "\\" "" = false from by decide]

/-- C2 (amended): marker-containing names are not universally rejected.
On the image-delete paths, a submitted name triggers no `unlink` and
leaves the filesystem unchanged exactly when the route guard fails — the
name is empty, or after stripping its directory components the remaining
basename is empty or still contains a parent-directory marker or a path
separator; every other name, including names whose `..` or separators lie
only in the stripped directory part, reaches the `unlink` call with its
bare basename joined to the gallery root.  On the upload path no name is
ever rejected: the stored stem is sanitised so that each of its characters
lies in `[A-Za-z0-9_-]` (hence contains no marker or separator), and
processing proceeds for every name. -/
theorem c2_name_guard (root : FsPath) (fs : List FsPath) (raw : String) :
    (((imagesDeleteOne root fs raw).unlink = none ∧ (imagesDeleteOne root fs raw).fs = fs) ↔
      (raw = "" ∨ bn raw = "" ∨ containsSubStr ".." (bn raw) = true ∨
        containsSubStr "/" (bn raw) = true ∨ containsSubStr "\\" (bn raw) = true)) ∧
    (sanitizeStem raw).toList.all keepAllowedChar = true := by
  constructor
  · constructor
    · rintro ⟨h1, _⟩
      rw [← routeSafeName_eq_none_iff]
      unfold imagesDeleteOne at h1
      cases hg : routeSafeName raw with
      | none => rfl
      | some s => rw [hg] at h1; exact absurd h1 (by simp)
    · intro hg
      have hn : routeSafeName raw = none := (routeSafeName_eq_none_iff raw).mpr hg
      unfold imagesDeleteOne
      rw [hn]
      exact ⟨rfl, rfl⟩
  · rw [List.all_eq_true]
    intro c hc
    exact List.of_mem_filter hc

/-- Correctness of the substring test: `containsSub pat l` holds exactly
when `l` decomposes around a contiguous copy of `pat`. -/
theorem containsSub_iff_parts (pat l : List Char) :
    containsSub pat l = true ↔ ∃ x y, l = x ++ pat ++ y := by
  unfold containsSub
  rw [List.any_eq_true]
  constructor
  · rintro ⟨t, ht, hpre⟩
    rw [List.mem_tails] at ht
    rw [List.isPrefixOf_iff_prefix] at hpre
    obtain ⟨y, hy⟩ := hpre
    obtain ⟨x, hx⟩ := ht
    refine ⟨x, y, ?_⟩
    rw [List.append_assoc, hy, hx]
  · rintro ⟨x, y, rfl⟩
    refine ⟨pat ++ y, ?_, ?_⟩
    · rw [List.mem_tails]
      exact ⟨x, by rw [List.append_assoc]⟩
    · rw [List.isPrefixOf_iff_prefix]
      exact ⟨y, rfl⟩

/-- C3 (counterexample): a presented credential whose admin-cookie value is
`43210` — not the shared secret — is allowed by the gate: the substring
test sees `admin=4321` inside `admin=43210`. -/
theorem c3_mismatched_value_allowed :
    requireAdmin "admin=43210" none = true ∧
    cookieValue "admin=43210" "admin" = some "43210" ∧
    ("43210" : String) ≠ adminPin := by
  refine ⟨by decide, by decide, by decide⟩

/-- C3 (amended): authorization is decided by substring containment on the
cookie header, not by equality of the credential value: the gate allows
exactly when the cookie header contains `admin=4321` as a contiguous
substring or the `x-admin-pin` header equals `4321`; every other input —
in particular any missing credential — is denied.  (Consequently some
credential values different from the secret, such as `43210`, are
allowed.) -/
theorem c3_gate_substring (cookie : String) (pin : Option String) :
    requireAdmin cookie pin = true ↔
      ((∃ x y : String, cookie = x ++ adminCookiePair ++ y) ∨ pin = some adminPin) := by
  unfold requireAdmin containsSubStr
  rw [Bool.or_eq_true, beq_iff_eq, containsSub_iff_parts]
  constructor
  · rintro (⟨x, y, hxy⟩ | hp)
    · refine Or.inl ⟨String.mk x, String.mk y, ?_⟩
      apply String.ext
      show cookie.data = _
      rw [show cookie.data = cookie.toList from rfl, hxy]
      rfl
    · exact Or.inr hp
  · rintro (⟨x, y, rfl⟩ | hp)
    · exact Or.inl ⟨x.toList, y.toList, rfl⟩
    · exact Or.inr hp

/-- A left fold of size additions over a list of walk results equals the
initial value plus the sum of the sizes (the shape of `files.reduce((s, f)
=> s + (f.size || 0), 0)`). -/
theorem foldl_size_eq_sum (l : List ImgInfo) (n : Nat) :
    l.foldl (fun s f => s + f.size) n = n + (l.map ImgInfo.size).sum := by
  induction l generalizing n with
  | nil => simp
  | cons a t ih => simp [ih, Nat.add_assoc]

mutual
/-- The sizes collected by the walk at one entry sum to the direct
recursive size sum, for every relative-path accumulator. -/
theorem walkEntry_size_sum (d : String) (e : FsEntry) :
    ((walkEntry d e).map ImgInfo.size).sum = sumSizesEntry e := by
  cases e with
  | file n s m =>
    by_cases hn : allowedExt n = true <;> simp [walkEntry, sumSizesEntry, hn]
  | dir n cs =>
    show ((walkForest (joinRel d n) cs).map ImgInfo.size).sum = sumSizesForest cs
    exact walkForest_size_sum (joinRel d n) cs
/-- The sizes collected by the walk over a forest sum to the direct
recursive size sum. -/
theorem walkForest_size_sum (d : String) (t : FsForest) :
    ((walkForest d t).map ImgInfo.size).sum = sumSizesForest t := by
  cases t with
  | nil => rfl
  | cons e rest =>
    show (((walkEntry d e) ++ (walkForest d rest)).map ImgInfo.size).sum = _
    rw [List.map_append, List.sum_append, walkEntry_size_sum d e,
      walkForest_size_sum d rest]
    rfl
end

mutual
/-- The number of files collected by the walk at one entry equals the
direct recursive count. -/
theorem walkEntry_length (d : String) (e : FsEntry) :
    (walkEntry d e).length = countEntry e := by
  cases e with
  | file n s m =>
    by_cases hn : allowedExt n = true <;> simp [walkEntry, countEntry, hn]
  | dir n cs =>
    exact walkForest_length (joinRel d n) cs
/-- The number of files collected by the walk over a forest equals the
direct recursive count. -/
theorem walkForest_length (d : String) (t : FsForest) :
    (walkForest d t).length = countForest t := by
  cases t with
  | nil => rfl
  | cons e rest =>
    show ((walkEntry d e) ++ (walkForest d rest)).length = _
    rw [List.length_append, walkEntry_length d e, walkForest_length d rest]
    rfl
end

/-- C8: the disk-usage reply reports `usedBytes` equal to the exact
recursive sum of the sizes of every recognised-extension file under the
asset root, `fileCount` equal to the number of such files, `totalBytes`
equal to the statically configured five-gibibyte capacity, and `usedPct`
equal to the half-up-rounded percentage `usedBytes / totalBytes * 100`. -/
theorem c8_disk_info (t : FsForest) :
    (diskInfo t).usedBytes = sumSizesForest t ∧
    (diskInfo t).fileCount = countForest t ∧
    (diskInfo t).totalBytes = 5 * 1024 * 1024 * 1024 ∧
    (diskInfo t).usedPct
      = jsRound ((sumSizesForest t : ℚ) / (5 * 1024 * 1024 * 1024 : ℚ) * 100) := by
  have hused : (walkImages t).foldl (fun s f => s + f.size) 0 = sumSizesForest t := by
    rw [foldl_size_eq_sum, Nat.zero_add]
    exact walkForest_size_sum "" t
  refine ⟨hused, ?_, rfl, ?_⟩
  · exact walkForest_length "" t
  · show (if DISK_SIZE_GB * 1024 * 1024 * 1024 > 0 then
        jsRound ((((walkImages t).foldl (fun s f => s + f.size) 0 : Nat) : ℚ)
          / ((DISK_SIZE_GB * 1024 * 1024 * 1024 : Nat) : ℚ) * 100) else 0)
      = jsRound ((sumSizesForest t : ℚ) / (5 * 1024 * 1024 * 1024 : ℚ) * 100)
    rw [if_pos (by norm_num [DISK_SIZE_GB])]
    rw [hused]
    norm_num [DISK_SIZE_GB]

/-- One delete step never grows the filesystem. -/
theorem imagesDeleteOne_subset (root : FsPath) (fs : List FsPath) (raw : String) :
    ∀ p ∈ (imagesDeleteOne root fs raw).fs, p ∈ fs := by
  intro p hp
  unfold imagesDeleteOne at hp
  cases hg : routeSafeName raw with
  | none => rw [hg] at hp; exact hp
  | some s => rw [hg] at hp; exact (List.mem_filter.mp hp).1

/-- Any file removed by one delete step is a direct child of the gallery
root: its path is the root's segments followed by exactly one further
segment. -/
theorem imagesDeleteOne_removed (root : FsPath) (fs : List FsPath) (raw : String)
    (hroot : root ∉ fs) (p : FsPath) (hp : p ∈ fs)
    (hnp : p ∉ (imagesDeleteOne root fs raw).fs) :
    root <+: p ∧ p.length = root.length + 1 := by
  unfold imagesDeleteOne at hnp
  cases hg : routeSafeName raw with
  | none => rw [hg] at hnp; exact absurd hp hnp
  | some s =>
    rw [hg] at hnp
    have hpt : p = joinSeg root s := by
      by_contra hne
      exact hnp (List.mem_filter.mpr ⟨hp, by simpa using hne⟩)
    unfold joinSeg at hpt
    by_cases hs : s = "."
    · rw [if_pos hs] at hpt
      exact absurd (hpt ▸ hp) hroot
    · rw [if_neg hs] at hpt
      subst hpt
      exact ⟨⟨[s], rfl⟩, by simp⟩

/-- C9: every unlink issued by the image-delete operations targets the
gallery root joined with one bare basename, so any file either operation
removes — through the batch route or the single-name route — is a direct
child of the gallery root: never a file in the product-image subdirectory
(two levels down) and never a file outside the root. -/
theorem c9_delete_targets_root_children (root : FsPath) (fs : List FsPath)
    (raws : List String) (raw : String) (hroot : root ∉ fs) :
    (∀ p ∈ fs, p ∉ imagesDeleteBatch root fs raws →
      root <+: p ∧ p.length = root.length + 1) ∧
    (∀ p ∈ fs, p ∉ (imagesDeleteOne root fs raw).fs →
      root <+: p ∧ p.length = root.length + 1) := by
  refine ⟨?_, fun p hp hnp => imagesDeleteOne_removed root fs raw hroot p hp hnp⟩
  clear raw
  induction raws generalizing fs with
  | nil =>
    intro p hp hnp
    exact absurd hp hnp
  | cons r rs ih =>
    intro p hp hnp
    have hbatch : imagesDeleteBatch root fs (r :: rs)
        = imagesDeleteBatch root (imagesDeleteOne root fs r).fs rs := rfl
    rw [hbatch] at hnp
    by_cases hmem : p ∈ (imagesDeleteOne root fs r).fs
    · have hroot' : root ∉ (imagesDeleteOne root fs r).fs := fun hc =>
        hroot (imagesDeleteOne_subset root fs r root hc)
      exact ih (imagesDeleteOne root fs r).fs hroot' p hmem hnp
    · exact imagesDeleteOne_removed root fs r hroot p hp hmem

/-- C9 (witness): at a concrete root and filesystem, the file removed by a
single-name delete is a direct child of the root. -/
theorem c9_delete_targets_root_children_witness :
    (["public", "images"] : FsPath) ∉
      [["public", "images", "a.jpg"], ["public", "images", "products", "x.jpg"]] ∧
    ((["public", "images"] : FsPath) <+: ["public", "images", "a.jpg"] ∧
      (["public", "images", "a.jpg"] : FsPath).length = (["public", "images"] : FsPath).length + 1) :=
  ⟨by decide,
    (c9_delete_targets_root_children ["public", "images"]
        [["public", "images", "a.jpg"], ["public", "images", "products", "x.jpg"]]
        [] "a.jpg" (by decide)).2
      ["public", "images", "a.jpg"] (by decide) (by decide)⟩

/-- C10: when the catalog document is missing, unreadable, or rejected by
the parser, every catalog operation treats the catalog as the empty
collection instead of failing: List returns the empty list, a subsequent
valid Add persists a document that serialises exactly the one newly
created record, and Delete reports not-found without touching the
document. -/
theorem c10_corrupt_doc_as_empty (parse : String → Option (List Rec))
    (stringify : List Rec → String) (doc : Option String) (nm idv ts iD : String)
    (hdoc : doc = none ∨ ∃ s, doc = some s ∧ parse s = none)
    (hnm : jsTrim nm ≠ "") :
    listProducts parse doc = [] ∧
    (productsAdd parse stringify (some nm) none none none "u" idv ts doc).newDoc
      = some (stringify [mkRec idv (jsTrim nm) "" "" placeholderImage ts]) ∧
    (productsDelete parse stringify iD doc).out = .error "product not found" ∧
    (productsDelete parse stringify iD doc).newDoc = doc := by
  have hread : readProducts parse doc = [] := by
    rcases hdoc with h | ⟨s, h, hs⟩
    · rw [h]; rfl
    · rw [h]
      show (parse s).getD [] = []
      rw [hs]
      rfl
  refine ⟨?_, ?_, ?_, ?_⟩
  · show sortBy newerFirst (readProducts parse doc) = []
    rw [hread]
    rfl
  · unfold productsAdd
    simp only [hnm, decide_not]
    rw [hread]
    simp [hnm]
    rw [show jsTrim "" = "" from by decide]
  · unfold productsDelete
    rw [hread]
    rfl
  · unfold productsDelete
    rw [hread]
    rfl

/-- C10 (witness): a concrete unparseable document behaves as the empty
catalog for List, Add and Delete. -/
theorem c10_corrupt_doc_as_empty_witness :
    listProducts (fun _ => none) (some "garbage") = [] ∧
    (productsAdd (fun _ => none) (fun l => toString l.length) (some "Cake") none none none
        "u" "p1" "t0" (some "garbage")).newDoc
      = some (toString ([mkRec "p1" (jsTrim "Cake") "" "" placeholderImage "t0"] : List Rec).length) ∧
    (productsDelete (fun _ => none) (fun l => toString l.length) "zz" (some "garbage")).out
      = .error "product not found" ∧
    (productsDelete (fun _ => none) (fun l => toString l.length) "zz" (some "garbage")).newDoc
      = some "garbage" :=
  c10_corrupt_doc_as_empty (fun _ => none) (fun l => toString l.length) (some "garbage")
    "Cake" "p1" "t0" "zz" (Or.inr ⟨"garbage", rfl, rfl⟩) (by decide)

example : routeSafeName "/" = none := by decide
example : bn "/" = "" := by decide
example : routeSafeName "" = none := by decide
example : (imagesDeleteOne ["public", "images"] [] "/").unlink = none := by decide
example : (imagesDeleteOne ["public", "images"] [] ".").unlink
    = some ["public", "images"] := by decide
